import Mathlib

/-!
Shallow embedding of the starry surface-map class (src/starry2/maps.h,
instantiated at the double-precision scalar, modelled by the exact
rationals) together with the helpers it uses from
src/starry/include/utils.h.  The basis machinery (basis.h), the Wigner
rotation machinery (rotation.h) and the error classes (errors.h) are not
part of the sources: the basis matrices A1 and A, the machine square root,
the value of pi, and the Wigner rotation applications are therefore carried
as explicit per-instance parameters of the embedded state, exactly as the
C++ object carries its Basis and Wigner members constructed once from
lmax.  Fallible member functions are embedded as Except-valued functions;
the not-a-number sentinel returned by the intensity evaluator is embedded
as the none case of an Option.
-/

namespace StarryMaps

/-- The error taxonomy of errors.h as used by maps.h. -/
inductive Err where
  | IndexError : Err
  | ValueError : Err
  | NotImplementedError : Err
  deriving DecidableEq, Repr

instance {e a : Type} [DecidableEq e] [DecidableEq a] :
    DecidableEq (Except e a) := fun x z =>
  match x, z with
  | .ok u, .ok v =>
    if h : u = v then isTrue (by rw [h])
    else isFalse (by intro hc; cases hc; exact h rfl)
  | .ok _, .error _ => isFalse (by intro hc; cases hc)
  | .error _, .ok _ => isFalse (by intro hc; cases hc)
  | .error u, .error v =>
    if h : u = v then isTrue (by rw [h])
    else isFalse (by intro hc; cases hc; exact h rfl)

/-- Dot product of two coefficient vectors (Eigen dot on equal-length
vectors; extra entries of the longer vector are ignored, matching the
equal-length uses in the source). -/
def dotL (a b : List ℚ) : ℚ :=
  (List.zip a b).foldl (fun s q => s + q.1 * q.2) 0

/-- A dense matrix as a list of rows. -/
abbrev Mat : Type := List (List ℚ)

/-- Matrix times column vector: row-wise dot products. -/
def matVec (A : Mat) (v : List ℚ) : List ℚ :=
  A.map (fun row => dotL row v)

/-- Row vector times matrix, `(vᵀA)_j = Σ_i v_i A_{i j}`. -/
def vecMat (v : List ℚ) (A : Mat) : List ℚ :=
  (List.transpose A).map (fun col => dotL v col)

/-- The unit vector `yhat = (0, 1, 0)` of utils.h. -/
def yhatQ : ℚ × ℚ × ℚ := (0, 1, 0)

/-- The embedded state of a `Map<T, U>` instance (maps.h lines 38-129).
The first block holds the construction-time configuration: the degree
bound, the `Y00_is_unity` flag, the basis matrices `A1` and `A` of the
`Basis` member, and the numeric/rotation services supplied by the scalar
type and the `Wigner` member (`sq` is the machine square root, `rotY` the
Wigner rotation applied to a coefficient vector for a given angle in
degrees, `rotRight` the right-application of the rotation blocks to a row
vector, `rotDY` the application of the `dRdtheta` blocks, `adDeriv` the
forward-mode derivatives of the polynomial basis at a surface point, and
`piQ` the machine value of pi).  The second block is the mutable state:
the coefficient vector `y`, the cached polynomial and Greens vectors `p`
and `g`, the rotation `axis`, the scratch vectors `tmp_vec` and
`tmp_col_vec`, the scratch pointer `tmp_vec_ptr` (true when it points at
`p`), and the intensity gradient `dI`. -/
structure MapS where
  lmax : ℕ
  Y00_is_unity : Bool
  A1 : Mat
  A : Mat
  sq : ℚ → ℚ
  rotY : ℚ → List ℚ → List ℚ
  rotRight : ℚ → List ℚ → List ℚ
  rotDY : ℚ → List ℚ → List ℚ
  adDeriv : ℚ → ℚ → List ℚ × List ℚ
  piQ : ℚ
  y : List ℚ
  p : List ℚ
  g : List ℚ
  axis : ℚ × ℚ × ℚ
  tmp_vec : List ℚ
  tmp_col_vec : List ℚ
  tmpPtrIsP : Bool
  dI : List ℚ

namespace MapS

/-- The const member of maps.h line 77: `N = (lmax + 1) * (lmax + 1)`. -/
def N (m : MapS) : ℕ := (m.lmax + 1) * (m.lmax + 1)

/-- Embeds `Map::update` (maps.h lines 137-147): recompute `p = A1 * y` and
`g = A * y`; the `W.update()` call only refreshes the rotation cache of
the Wigner member and touches none of the embedded fields. -/
def update (m : MapS) : MapS :=
  { m with p := matVec m.A1 m.y, g := matVec m.A m.y }

/-- Embeds `Map::reset` (maps.h lines 150-156): zero `y` (constant term one when
`Y00_is_unity`), restore the default axis `yhat`, then `update`. -/
def reset (m : MapS) : MapS :=
  update { m with
    y := if m.Y00_is_unity
         then (List.replicate m.N 0).set 0 1
         else List.replicate m.N 0,
    axis := yhatQ }

/-- Embeds `Map::setCoeff(int l, int m, U coeff)` (maps.h lines 166-178): the
`Y_{0,0}`-fixed check comes first, then the `(l, m)` bounds check; on
success the flat entry `n = l*l + l + m` is written and `update` runs. -/
def setCoeff (m : MapS) (l mm : ℤ) (coeff : ℚ) : Except Err MapS :=
  if l = 0 ∧ m.Y00_is_unity = true ∧ coeff ≠ 1 then
    .error .ValueError
  else if 0 ≤ l ∧ l ≤ (m.lmax : ℤ) ∧ -l ≤ mm ∧ mm ≤ l then
    .ok (update { m with y := m.y.set (l * l + l + mm).toNat coeff })
  else
    .error .IndexError

/-- Embeds `Map::getCoeff(int l, int m)` (maps.h lines 207-212). -/
def getCoeff (m : MapS) (l mm : ℤ) : Except Err ℚ :=
  if 0 ≤ l ∧ l ≤ (m.lmax : ℤ) ∧ -l ≤ mm ∧ mm ≤ l then
    .ok (m.y.getD (l * l + l + mm).toNat 0)
  else
    .error .IndexError

end MapS

/-- The loop body of the bulk `Map::setCoeff(inds, coeffs)` (maps.h lines
189-198): each pair is validated and then written directly into `y`; the
first failing pair aborts the loop with the coefficient vector keeping
every earlier write.  The in-range guard of the source is
`inds(i) < 0 || inds(i) > N` (note: `> N`, not `>= N`); for an admitted
index equal to `N` the C++ coefficient access `y(inds(i))` is out of the
bounds of the size-`N` vector (the embedding's `List.set` is a no-op
there). -/
def bulkLoop (Y00u : Bool) (Nint : ℤ) :
    List (ℤ × ℚ) → List ℚ → List ℚ × Option Err
  | [], y => (y, none)
  | (n, c) :: rest, y =>
    if n = 0 ∧ Y00u = true ∧ c ≠ 1 then (y, some .ValueError)
    else if n < 0 ∨ n > Nint then (y, some .IndexError)
    else bulkLoop Y00u Nint rest (y.set n.toNat c)

namespace MapS

/-- Bulk `Map::setCoeff(const Vector<int>&, const Vector<U>&)` (maps.h
lines 182-203): size-mismatch check, then the write loop, then `update`
only when the whole loop succeeded.  The returned pair is the state of
the object after the call together with the exception it raised, if
any. -/
def setCoeffBulk (m : MapS) (inds : List ℤ) (coeffs : List ℚ) :
    MapS × Option Err :=
  if inds.length ≠ coeffs.length then (m, some .IndexError)
  else
    match bulkLoop m.Y00_is_unity (m.N : ℤ) (inds.zip coeffs) m.y with
    | (y1, some e) => ({ m with y := y1 }, some e)
    | (y1, none) => (update { m with y := y1 }, none)

end MapS

/-- The loop of the bulk `Map::getCoeff(const Vector<int>&)` (maps.h
lines 216-225), with the same `inds(i) < 0 || inds(i) > N` guard; an
admitted index equal to `N` reads past the end of `y` in the C++ (the
embedding's `getD` returns the default there). -/
def getLoop (Nint : ℤ) (y : List ℚ) : List ℤ → Except Err (List ℚ)
  | [] => .ok []
  | n :: rest =>
    if n < 0 ∨ n > Nint then .error .IndexError
    else
      match getLoop Nint y rest with
      | .ok cs => .ok (y.getD n.toNat 0 :: cs)
      | .error e => .error e

namespace MapS

/-- Bulk `Map::getCoeff(const Vector<int>&)` (maps.h lines 216-225). -/
def getCoeffBulk (m : MapS) (inds : List ℤ) : Except Err (List ℚ) :=
  getLoop (m.N : ℤ) m.y inds

/-- Embeds `Map::setAxis` (maps.h lines 229-242): store the components, divide
by the machine square root of the sum of squares, refresh the Wigner
cache; no validation and no exception. -/
def setAxis (m : MapS) (v : ℚ × ℚ × ℚ) : MapS :=
  { m with axis :=
      (v.1 / m.sq (v.1 * v.1 + v.2.1 * v.2.1 + v.2.2 * v.2.2),
       v.2.1 / m.sq (v.1 * v.1 + v.2.1 * v.2.1 + v.2.2 * v.2.2),
       v.2.2 / m.sq (v.1 * v.1 + v.2.1 * v.2.1 + v.2.2 * v.2.2)) }

/-- Embeds `Map::rotate` (maps.h lines 326-330): rotate `y` in place through the
Wigner member, then `update`. -/
def rotate (m : MapS) (theta : ℚ) : MapS :=
  update { m with y := m.rotY theta m.y }

end MapS

/-- One term of `Map::poly_basis` (maps.h lines 340-370): the entry for
degree `l` and order `mm`, with `mu = l - m`, `nu = l + m` and the parity
case split of the source (C++ `int` division on the non-negative `mu`,
`nu` is truncating division). -/
def basisTerm (x0 y0 z0 : ℚ) (l mm : ℤ) : ℚ :=
  let mu := l - mm
  let nu := l + mm
  if nu % 2 = 0 then
    if mu > 0 ∧ nu > 0 then x0 ^ (mu / 2).toNat * y0 ^ (nu / 2).toNat
    else if mu > 0 then x0 ^ (mu / 2).toNat
    else if nu > 0 then y0 ^ (nu / 2).toNat
    else 1
  else
    if mu > 1 ∧ nu > 1 then
      x0 ^ ((mu - 1) / 2).toNat * y0 ^ ((nu - 1) / 2).toNat * z0
    else if mu > 1 then x0 ^ ((mu - 1) / 2).toNat * z0
    else if nu > 1 then y0 ^ ((nu - 1) / 2).toNat * z0
    else z0

/-- Embeds `Map::poly_basis` (maps.h lines 340-370): the polynomial basis row
vector at `(x0, y0)`, entries in flat-index order `n = l*l + l + m`. -/
def polyBasis (lmax : ℕ) (x0 y0 z0 : ℚ) : List ℚ :=
  (List.range (lmax + 1)).flatMap
    (fun l => (List.range (2 * l + 1)).map
      (fun k => basisTerm x0 y0 z0 (l : ℤ) ((k : ℤ) - (l : ℤ))))

namespace MapS

/-- The polynomial basis at a surface point, with
`z0 = sqrt(1 - x0^2 - y0^2)` computed by the machine square root
(maps.h line 342). -/
def polyBasisAt (m : MapS) (x0 y0 : ℚ) : List ℚ :=
  polyBasis m.lmax x0 y0 (m.sq (1 - x0 * x0 - y0 * y0))

/-- The polynomial vector the evaluator dots against: `p` itself when
`theta = 0`, otherwise `A1` times the Wigner rotation of `y` (maps.h
lines 390-396; `theta = 0` in radians exactly when the degree argument is
zero). -/
def viewVec (m : MapS) (theta : ℚ) : List ℚ :=
  if theta = 0 then m.p else matVec m.A1 (m.rotY theta m.y)

/-- Embeds `Map::evaluate_with_gradient` (maps.h lines 411-471): same
rotate-into-view and outside-the-disk check as `evaluate`, then the
forward-mode basis derivatives fill `dI`; returns the same dot product.
The none case is the `U(NAN)` sentinel. -/
def evaluateGrad (m : MapS) (theta x0 y0 : ℚ) : Option ℚ × MapS :=
  let m1 := if theta = 0 then { m with tmpPtrIsP := true }
            else { m with tmp_vec := matVec m.A1 (m.rotY theta m.y),
                          tmpPtrIsP := false }
  if x0 * x0 + y0 * y0 > 1 then (none, m1)
  else
    let b := m.polyBasisAt x0 y0
    let v := if m1.tmpPtrIsP then m1.p else m1.tmp_vec
    let deriv := m.adDeriv x0 y0
    let dIx := dotL deriv.1 v
    let dIy := dotL deriv.2 v
    let dmap0 := vecMat b m.A1
    let dmap := if theta = 0 then dmap0 else m.rotRight theta dmap0
    let foo := m.rotDY theta m.y
    let dth := dotL dmap0 foo * (m.piQ / 180)
    (some (dotL b v),
     { m1 with tmp_col_vec := b, dI := dth :: dIx :: dIy :: dmap })

/-- Embeds `Map::evaluate` (maps.h lines 374-407): dispatch to the gradient
variant when asked, otherwise rotate into view (writing the scratch
vector and scratch pointer only), return the `NAN` sentinel (none)
outside the unit disk, else the basis/coefficient dot product. -/
def evaluate (m : MapS) (theta x0 y0 : ℚ) (compute_gradient : Bool) :
    Option ℚ × MapS :=
  if compute_gradient then m.evaluateGrad theta x0 y0
  else
    let m1 := if theta = 0 then { m with tmpPtrIsP := true }
              else { m with tmp_vec := matVec m.A1 (m.rotY theta m.y),
                            tmpPtrIsP := false }
    if x0 * x0 + y0 * y0 > 1 then (none, m1)
    else
      let b := m.polyBasisAt x0 y0
      let m2 := { m1 with tmp_col_vec := b }
      (some (dotL b (if m2.tmpPtrIsP then m2.p else m2.tmp_vec)), m2)

end MapS

/-- The `Map` constructor (maps.h lines 75-103) at the double scalar:
record the configuration, zero-initialize the vectors, then `reset` (which
runs `update`).  `dI` has length `3 + N` (maps.h line 78). -/
def mkMap (lmax : ℕ) (Y00u : Bool) (A1 A : Mat) (sq : ℚ → ℚ)
    (rotY rotRight rotDY : ℚ → List ℚ → List ℚ)
    (adDeriv : ℚ → ℚ → List ℚ × List ℚ) (piQ : ℚ) : MapS :=
  MapS.reset
    { lmax := lmax, Y00_is_unity := Y00u, A1 := A1, A := A, sq := sq,
      rotY := rotY, rotRight := rotRight, rotDY := rotDY,
      adDeriv := adDeriv, piQ := piQ,
      y := List.replicate ((lmax + 1) * (lmax + 1)) 0,
      p := List.replicate ((lmax + 1) * (lmax + 1)) 0,
      g := List.replicate ((lmax + 1) * (lmax + 1)) 0,
      axis := yhatQ,
      tmp_vec := List.replicate ((lmax + 1) * (lmax + 1)) 0,
      tmp_col_vec := List.replicate ((lmax + 1) * (lmax + 1)) 0,
      tmpPtrIsP := true,
      dI := List.replicate (3 + (lmax + 1) * (lmax + 1)) 0 }

/-- Modelled from the spec: the construction-time validity check on
`lmax`.  The visible constructor (maps.h lines 75-103) delegates basis
construction to the `Basis` member whose code (basis.h) is not among the
sources; the supported maximum is the `STARRY_MAX_LMAX = 50` of
src/starry/include/utils.h lines 53-56, and the spec states that
construction fails fatally for a negative `lmax` or one above that
maximum and succeeds otherwise. -/
def mkMapChecked (lmax : ℤ) (Y00u : Bool) (A1 A : Mat) (sq : ℚ → ℚ)
    (rotY rotRight rotDY : ℚ → List ℚ → List ℚ)
    (adDeriv : ℚ → ℚ → List ℚ × List ℚ) (piQ : ℚ) : Except Err MapS :=
  if lmax < 0 ∨ lmax > 50 then .error .ValueError
  else .ok (mkMap lmax.toNat Y00u A1 A sq rotY rotRight rotDY adDeriv piQ)

/-- The public mutating operations of the map, as a datatype of calls. -/
inductive MapOp where
  | opSet (l mm : ℤ) (coeff : ℚ) : MapOp
  | opBulk (inds : List ℤ) (coeffs : List ℚ) : MapOp
  | opAxis (v : ℚ × ℚ × ℚ) : MapOp
  | opRotate (theta : ℚ) : MapOp
  | opReset : MapOp

/-- Apply one public mutating operation: the state of the object after
the call (unchanged when single `setCoeff` throws, partially written when
the bulk form throws mid-loop) together with the exception raised, if
any. -/
def applyOp (m : MapS) : MapOp → MapS × Option Err
  | .opSet l mm c =>
    match m.setCoeff l mm c with
    | .ok m1 => (m1, none)
    | .error e => (m, some e)
  | .opBulk inds coeffs => m.setCoeffBulk inds coeffs
  | .opAxis v => (m.setAxis v, none)
  | .opRotate theta => (m.rotate theta, none)
  | .opReset => (m.reset, none)

/-- IEEE-flavoured real division for the axis-normalization analysis:
`none` models the non-finite result of a zero divisor (a NaN when the
numerator is zero as well, which is what every component of `setAxis`
produces on the all-zero input, since then each numerator is zero too). -/
noncomputable def fdivR (a b : ℝ) : Option ℝ :=
  if b = 0 then none else some (a / b)

/-- Real-number model of the arithmetic of `Map::setAxis` (maps.h lines
232-237, the same formula as `norm_unit` in utils.h lines 216-222):
each stored component is the input component divided by the square root
of the sum of squares, with no guard against a zero input. -/
noncomputable def setAxisR (a b c : ℝ) : Option ℝ × Option ℝ × Option ℝ :=
  (fdivR a (Real.sqrt (a * a + b * b + c * c)),
   fdivR b (Real.sqrt (a * a + b * b + c * c)),
   fdivR c (Real.sqrt (a * a + b * b + c * c)))

namespace MapS

/-- Cache coherence: the derived vectors match the coefficient vector
through the basis matrices. -/
def coherent (m : MapS) : Prop :=
  m.p = matVec m.A1 m.y ∧ m.g = matVec m.A m.y

instance (m : MapS) : Decidable m.coherent :=
  inferInstanceAs (Decidable (m.p = matVec m.A1 m.y ∧ m.g = matVec m.A m.y))

/-- Size well-formedness: `y`, `p`, `g` have length `N` and the basis
matrices have `N` rows. -/
def sized (m : MapS) : Prop :=
  m.y.length = m.N ∧ m.p.length = m.N ∧ m.g.length = m.N ∧
  m.A1.length = m.N ∧ m.A.length = m.N

instance (m : MapS) : Decidable m.sized :=
  inferInstanceAs (Decidable (m.y.length = m.N ∧ m.p.length = m.N ∧
    m.g.length = m.N ∧ m.A1.length = m.N ∧ m.A.length = m.N))

end MapS

theorem matVec_length (A : Mat) (v : List ℚ) :
    (matVec A v).length = A.length := by
  simp [matVec]

theorem update_coherent (m : MapS) : m.update.coherent :=
  ⟨rfl, rfl⟩

theorem update_fields (m : MapS) :
    m.update.y = m.y ∧ m.update.axis = m.axis ∧ m.update.lmax = m.lmax ∧
    m.update.A1 = m.A1 ∧ m.update.A = m.A :=
  ⟨rfl, rfl, rfl, rfl, rfl⟩

theorem bulkLoop_fst_length (u : Bool) (Nint : ℤ) :
    ∀ (pairs : List (ℤ × ℚ)) (y : List ℚ),
      ((bulkLoop u Nint pairs y).1).length = y.length := by
  intro pairs
  induction pairs with
  | nil => intro y; rfl
  | cons q rest ih =>
    intro y
    obtain ⟨n, c⟩ := q
    simp only [bulkLoop]
    split
    · rfl
    · split
      · rfl
      · rw [ih (y.set n.toNat c), List.length_set]

theorem flatIdx_bounds (lmax : ℕ) (l mm : ℤ) (h0 : 0 ≤ l)
    (h1 : l ≤ (lmax : ℤ)) (h2 : -l ≤ mm) (h3 : mm ≤ l) :
    0 ≤ l * l + l + mm ∧
    l * l + l + mm < ((lmax : ℤ) + 1) * ((lmax : ℤ) + 1) := by
  constructor
  · nlinarith
  · nlinarith

theorem setCoeffBulk_spec (m : MapS) (inds : List ℤ) (coeffs : List ℚ) :
    (m.setCoeffBulk inds coeffs = (m, some .IndexError) ∧
      inds.length ≠ coeffs.length) ∨
    (∃ y1 e, bulkLoop m.Y00_is_unity (m.N : ℤ) (inds.zip coeffs) m.y
        = (y1, some e) ∧
      m.setCoeffBulk inds coeffs = ({ m with y := y1 }, some e)) ∨
    (∃ y1, bulkLoop m.Y00_is_unity (m.N : ℤ) (inds.zip coeffs) m.y
        = (y1, none) ∧
      m.setCoeffBulk inds coeffs = (MapS.update { m with y := y1 }, none)) := by
  unfold MapS.setCoeffBulk
  split_ifs with h1
  · exact Or.inl ⟨rfl, h1⟩
  · rcases hbl : bulkLoop m.Y00_is_unity (m.N : ℤ) (inds.zip coeffs) m.y
      with ⟨y1, oe⟩
    cases oe with
    | some e1 => exact Or.inr (Or.inl ⟨y1, e1, rfl, rfl⟩)
    | none => exact Or.inr (Or.inr ⟨y1, rfl, rfl⟩)

theorem flatIdx_toNat_lt (lmax : ℕ) (l mm : ℤ) (h0 : 0 ≤ l)
    (h1 : l ≤ (lmax : ℤ)) (h2 : -l ≤ mm) (h3 : mm ≤ l) :
    (l * l + l + mm).toNat < (lmax + 1) * (lmax + 1) := by
  obtain ⟨hb0, hb1⟩ := flatIdx_bounds lmax l mm h0 h1 h2 h3
  rw [Int.toNat_lt hb0]
  push_cast
  exact hb1

theorem getD_set_self (l : List ℚ) (k : ℕ) (v : ℚ) (h : k < l.length) :
    (l.set k v).getD k 0 = v := by
  rw [List.getD_eq_getElem?_getD, List.getElem?_set_eq_of_lt v h]
  rfl

/-- A concrete square-root stub for the witness instances. -/
def sqStub : ℚ → ℚ := fun _ => 0

/-- A concrete (identity) rotation application for the witness
instances. -/
def idRot : ℚ → List ℚ → List ℚ := fun _ v => v

/-- A concrete basis-derivative stub for the witness instances. -/
def adStub : ℚ → ℚ → List ℚ × List ℚ := fun _ _ => ([], [])

/-- The 4-by-4 identity, a concrete `A1`/`A` for `lmax = 1`
instances. -/
def id4 : Mat :=
  [[1, 0, 0, 0], [0, 1, 0, 0], [0, 0, 1, 0], [0, 0, 0, 1]]

/-- A concrete constructed map with `lmax = 0` (`N = 1`). -/
def m0c : MapS := mkMap 0 false [[1]] [[1]] sqStub idRot idRot idRot adStub 3

/-- A concrete constructed map with `lmax = 1` (`N = 4`). -/
def m1c : MapS := mkMap 1 false id4 id4 sqStub idRot idRot idRot adStub 3

/-- A concrete constructed map with `lmax = 1` and the `Y_{0,0}`
coefficient fixed at unity. -/
def m1u : MapS := mkMap 1 true id4 id4 sqStub idRot idRot idRot adStub 3

/-- C1: the claim says the bulk accessors raise IndexError exactly for a
flat index outside `[0, N)`, in particular at `n = N`.  The code's guard
is `inds(i) < 0 || inds(i) > N`, so on the `lmax = 0` map (`N = 1`) the
flat index `1 = N` is accepted by both bulk `setCoeff` and bulk
`getCoeff` with no IndexError raised, even though `y` has exactly `N`
entries, so the C++ accesses `y(N)` out of bounds; in-range index `0` is
accepted and indices `2` and `-1` do raise IndexError. -/
theorem starry_c1_flat_index_N_admitted :
    (m0c.setCoeffBulk [0] [5]).2 = none ∧
    (m0c.setCoeffBulk [1] [5]).2 = none ∧
    m0c.y.length = 1 ∧ m0c.N = 1 ∧
    (m0c.setCoeffBulk [2] [5]).2 = some .IndexError ∧
    (m0c.setCoeffBulk [-1] [5]).2 = some .IndexError ∧
    m0c.getCoeffBulk [1] = .ok [0] ∧
    m0c.getCoeffBulk [2] = .error .IndexError := by decide

/-- C2 counterexample: on a freshly constructed `lmax = 1` map, the bulk
call `setCoeff([1, -1], [5, 7])` raises IndexError at the second entry,
yet the first entry remains written: `y` is `[0, 5, 0, 0]` after the
failed call, not its pre-call value `[0, 0, 0, 0]`. -/
theorem starry_c2_partial_write_cx :
    (m1c.setCoeffBulk [1, -1] [5, 7]).2 = some .IndexError ∧
    (m1c.setCoeffBulk [1, -1] [5, 7]).1.y = [0, 5, 0, 0] ∧
    m1c.y = [0, 0, 0, 0] := by decide

/-- C2 amended: when a bulk `setCoeff` call raises, the derived vectors
`p` and `g` (and the axis) are exactly what they were before the call,
because the update step is never reached; the coefficient vector `y`,
however, keeps the writes of the entries that preceded the offending
one, so the observable state is partially mutated. -/
theorem starry_c2_failed_bulk_state (m : MapS) (inds : List ℤ)
    (coeffs : List ℚ) (e : Err)
    (h : (m.setCoeffBulk inds coeffs).2 = some e) :
    (m.setCoeffBulk inds coeffs).1.p = m.p ∧
    (m.setCoeffBulk inds coeffs).1.g = m.g ∧
    (m.setCoeffBulk inds coeffs).1.axis = m.axis := by
  unfold MapS.setCoeffBulk at h ⊢
  split_ifs at h ⊢ with h1
  · exact ⟨rfl, rfl, rfl⟩
  · rcases hbl : bulkLoop m.Y00_is_unity (m.N : ℤ) (inds.zip coeffs) m.y
      with ⟨y1, oe⟩
    rw [hbl] at h
    cases oe with
    | some e1 => exact ⟨rfl, rfl, rfl⟩
    | none => exact Option.noConfusion h

/-- C2 witness: the amended statement instantiated at the concrete failed
bulk call of the counterexample. -/
theorem starry_c2_failed_bulk_state_witness :
    (m1c.setCoeffBulk [1, -1] [5, 7]).2 = some .IndexError ∧
    ((m1c.setCoeffBulk [1, -1] [5, 7]).1.p = m1c.p ∧
     (m1c.setCoeffBulk [1, -1] [5, 7]).1.g = m1c.g ∧
     (m1c.setCoeffBulk [1, -1] [5, 7]).1.axis = m1c.axis) :=
  ⟨by decide, starry_c2_failed_bulk_state m1c [1, -1] [5, 7] .IndexError (by decide)⟩

/-- C7: `evaluate` is non-mutating with respect to the base state: for
every angle, surface point and gradient flag, the call leaves the
coefficient vector `y`, the derived vectors `p` and `g`, and the
rotation axis unchanged (only the scratch vectors, the scratch pointer
and the gradient output `dI` are written). -/
theorem starry_c7_evaluate_pure (m : MapS) (theta x0 y0 : ℚ) (grad : Bool) :
    (m.evaluate theta x0 y0 grad).2.y = m.y ∧
    (m.evaluate theta x0 y0 grad).2.p = m.p ∧
    (m.evaluate theta x0 y0 grad).2.g = m.g ∧
    (m.evaluate theta x0 y0 grad).2.axis = m.axis := by
  unfold MapS.evaluate MapS.evaluateGrad
  split_ifs <;> exact ⟨rfl, rfl, rfl, rfl⟩

/-- C9: `reset` zeroes all coefficients (with the constant term set to
one when the map was constructed with `Y00_is_unity`) and also restores
the rotation axis to the default `yhat = (0, 1, 0)`, in particular
discarding any axis previously installed through `setAxis`. -/
theorem starry_c9_reset_restores_axis (m : MapS) (v : ℚ × ℚ × ℚ) :
    m.reset.axis = yhatQ ∧
    ((m.setAxis v).reset).axis = yhatQ ∧
    m.reset.y = (if m.Y00_is_unity then (List.replicate m.N 0).set 0 1
                 else List.replicate m.N 0) ∧
    ((m.setAxis v).reset).y = m.reset.y := by
  exact ⟨rfl, rfl, rfl, rfl⟩

/-- C3: construction with an invalid degree bound fails.  The visible
constructor performs no check itself and delegates to the absent basis
machinery, so the check is modelled from the spec (see `mkMapChecked`):
construction reports a fatal error exactly when `lmax < 0` or
`lmax > 50 = STARRY_MAX_LMAX`, and returns a usable instance for no such
invalid `lmax`. -/
theorem starry_c3_lmax_validation (lmax : ℤ) (Y00u : Bool) (A1 A : Mat)
    (sq : ℚ → ℚ) (rotY rotRight rotDY : ℚ → List ℚ → List ℚ)
    (adDeriv : ℚ → ℚ → List ℚ × List ℚ) (piQ : ℚ) :
    ((lmax < 0 ∨ lmax > 50) →
      mkMapChecked lmax Y00u A1 A sq rotY rotRight rotDY adDeriv piQ
        = .error .ValueError) ∧
    (0 ≤ lmax → lmax ≤ 50 →
      ∃ mp, mkMapChecked lmax Y00u A1 A sq rotY rotRight rotDY adDeriv piQ
        = .ok mp) := by
  constructor
  · intro h
    unfold mkMapChecked
    rw [if_pos h]
  · intro h1 h2
    unfold mkMapChecked
    rw [if_neg (by omega)]
    exact ⟨_, rfl⟩

/-- C3 witness: `lmax = -1` is rejected and `lmax = 2` is accepted by the
construction-time check. -/
theorem starry_c3_lmax_validation_witness :
    ((-1 : ℤ) < 0 ∨ (-1 : ℤ) > 50) ∧
    mkMapChecked (-1) false [[1]] [[1]] sqStub idRot idRot idRot adStub 3
      = .error .ValueError ∧
    (0 : ℤ) ≤ 2 ∧ (2 : ℤ) ≤ 50 ∧
    (mkMapChecked 2 false [[1]] [[1]] sqStub idRot idRot idRot adStub 3).isOk
      = true := by
  refine ⟨Or.inl (by norm_num), ?_, by norm_num, by norm_num, ?_⟩
  · exact (starry_c3_lmax_validation (-1) false [[1]] [[1]] sqStub idRot idRot
      idRot adStub 3).1 (Or.inl (by norm_num))
  · obtain ⟨mp, hmp⟩ := (starry_c3_lmax_validation 2 false [[1]] [[1]] sqStub
      idRot idRot idRot adStub 3).2 (by norm_num) (by norm_num)
    rw [hmp]
    rfl

/-- C4 counterexample: on a map constructed with `Y00_is_unity`, the call
`setCoeff(0, 1, 5)` addresses an `(l, m)` pair outside the valid bounds
(`m = 1 > l = 0`), yet it raises ValueError (the `Y_{0,0}`-fixed check
fires first), not the IndexError the claim requires for every
out-of-bounds pair. -/
theorem starry_c4_y00_before_bounds_cx :
    m1u.setCoeff 0 1 5 = .error .ValueError ∧
    Err.ValueError ≠ Err.IndexError ∧
    ¬ ((1 : ℤ) ≤ 0) :=
  ⟨rfl, by decide, by decide⟩

/-- C4 amended: for every map and every in-bounds `(l, m)`, a successful
`setCoeff(l, m, v)` followed by `getCoeff(l, m)` returns `v` through the
flat index `n = l*l + l + m`; an out-of-bounds `(l, m)` raises IndexError,
except that when `l = 0`, the map fixes `Y_{0,0}` and the value differs
from one, the ValueError of the fixed-coefficient check takes
precedence. -/
theorem starry_c4_roundtrip (m : MapS) (l mm : ℤ) (v : ℚ)
    (hy : m.y.length = m.N) :
    (∀ m1, m.setCoeff l mm v = .ok m1 → m1.getCoeff l mm = .ok v) ∧
    (¬ (0 ≤ l ∧ l ≤ (m.lmax : ℤ) ∧ -l ≤ mm ∧ mm ≤ l) →
      m.setCoeff l mm v =
        .error (if l = 0 ∧ m.Y00_is_unity = true ∧ v ≠ 1
                then Err.ValueError else Err.IndexError)) := by
  constructor
  · intro m1 hok
    unfold MapS.setCoeff at hok
    by_cases hg1 : l = 0 ∧ m.Y00_is_unity = true ∧ v ≠ 1
    · rw [if_pos hg1] at hok
      exact Except.noConfusion hok
    · rw [if_neg hg1] at hok
      by_cases hg2 : 0 ≤ l ∧ l ≤ (m.lmax : ℤ) ∧ -l ≤ mm ∧ mm ≤ l
      · rw [if_pos hg2] at hok
        injection hok with hok1
        rw [← hok1]
        have hlen : (l * l + l + mm).toNat < m.y.length := by
          rw [hy]
          exact flatIdx_toNat_lt m.lmax l mm hg2.1 hg2.2.1 hg2.2.2.1 hg2.2.2.2
        show MapS.getCoeff _ l mm = _
        unfold MapS.getCoeff
        dsimp only [MapS.update]
        rw [if_pos hg2, getD_set_self m.y _ v hlen]
      · rw [if_neg hg2] at hok
        exact Except.noConfusion hok
  · intro hnb
    unfold MapS.setCoeff
    by_cases hg1 : l = 0 ∧ m.Y00_is_unity = true ∧ v ≠ 1
    · rw [if_pos hg1, if_pos hg1]
    · rw [if_neg hg1, if_neg hg1, if_neg hnb]

/-- C4 witness: the round trip at the concrete in-bounds pair
`(l, m) = (1, 0)` on the concrete `lmax = 1` map. -/
theorem starry_c4_roundtrip_witness :
    m1c.y.length = m1c.N ∧
    (m1c.setCoeff 1 0 5).map (fun m2 => m2.getCoeff 1 0)
      = .ok (.ok 5) := by
  refine ⟨by decide, ?_⟩
  have h := (starry_c4_roundtrip m1c 1 0 5 (by decide)).1
  rcases hs : m1c.setCoeff 1 0 5 with e | m2
  · have hok : (m1c.setCoeff 1 0 5).isOk = true := by decide
    rw [hs] at hok
    exact Bool.noConfusion hok
  · exact congrArg Except.ok (h m2 hs)

/-- Helper for C5: the value returned by `evaluate` is the NaN sentinel
exactly outside the closed unit disk, and otherwise the dot product of
the polynomial basis at the point with the viewing-rotated polynomial
vector. -/
theorem evaluate_fst (m : MapS) (theta x0 y0 : ℚ) (grad : Bool) :
    (m.evaluate theta x0 y0 grad).1 =
      if x0 * x0 + y0 * y0 > 1 then none
      else some (dotL (m.polyBasisAt x0 y0) (m.viewVec theta)) := by
  unfold MapS.evaluate MapS.evaluateGrad MapS.viewVec
  split_ifs <;> rfl

/-- C5: for every angle and every surface point strictly outside the unit
disk, `evaluate` returns the not-a-number sentinel (embedded as none) and
raises nothing; inside the disk it returns some dot product of the
polynomial basis at the point with the (rotated) polynomial coefficient
vector, never the sentinel. -/
theorem starry_c5_nan_sentinel (m : MapS) (theta x0 y0 : ℚ) (grad : Bool) :
    (x0 * x0 + y0 * y0 > 1 → (m.evaluate theta x0 y0 grad).1 = none) ∧
    (x0 * x0 + y0 * y0 ≤ 1 →
      (m.evaluate theta x0 y0 grad).1 =
        some (dotL (m.polyBasisAt x0 y0) (m.viewVec theta))) := by
  constructor
  · intro h
    rw [evaluate_fst, if_pos h]
  · intro h
    rw [evaluate_fst, if_neg (not_lt.mpr h)]

/-- C5 witness: on the concrete `lmax = 0` map, the point `(2, 0)` is
outside the disk and evaluates to the sentinel; the point `(0, 0)` is
inside and evaluates to the dot product. -/
theorem starry_c5_nan_sentinel_witness :
    ((2 : ℚ) * 2 + 0 * 0 > 1 ∧ (m0c.evaluate 0 2 0 false).1 = none) ∧
    ((0 : ℚ) * 0 + 0 * 0 ≤ 1 ∧ (m0c.evaluate 0 0 0 false).1 =
      some (dotL (m0c.polyBasisAt 0 0) (m0c.viewVec 0))) :=
  ⟨⟨by norm_num, (starry_c5_nan_sentinel m0c 0 2 0 false).1 (by norm_num)⟩,
   ⟨by norm_num, (starry_c5_nan_sentinel m0c 0 0 0 false).2 (by norm_num)⟩⟩

/-- C6 counterexample: after a failed bulk `setCoeff` (allowed to leave a
partially written `y` with stale `p` and `g`), the normally-returning
mutating operation `setAxis` does not restore coherence: the resulting
state has `p ≠ A1 * y`, so a `getP()` read observes a stale value. -/
theorem starry_c6_coherence_cx :
    ((applyOp ((m1c.setCoeffBulk [1, -1] [5, 7]).1) (.opAxis (0, 0, 1))).2
      = none) ∧
    ¬ ((applyOp ((m1c.setCoeffBulk [1, -1] [5, 7]).1)
        (.opAxis (0, 0, 1))).1.coherent) := by
  refine ⟨rfl, fun hcoh => ?_⟩
  have h3 : dotL [0, 1, 0, 0] [0, 0, 0, 0] = dotL [0, 1, 0, 0] [0, 5, 0, 0] :=
    congrArg (fun l => l.getD 1 0) hcoh.1
  norm_num [dotL] at h3

/-- C6 amended: construction establishes the cache-coherence invariant
`p = A1 * y` and `g = A * y`; every normally-returning `setCoeff` (single
or bulk), `rotate` and `reset` re-establishes it unconditionally, and
`setAxis` preserves it whenever it already holds — so along any history
in which no bulk `setCoeff` fails, every read of `p` or `g` is coherent
with `y`.  (After a failed bulk call, `setAxis` alone does not restore
coherence.) -/
theorem starry_c6_cache_coherence :
    (∀ (lmax : ℕ) (Y00u : Bool) (A1 A : Mat) (sq : ℚ → ℚ)
       (rotY rotRight rotDY : ℚ → List ℚ → List ℚ)
       (adDeriv : ℚ → ℚ → List ℚ × List ℚ) (piQ : ℚ),
      (mkMap lmax Y00u A1 A sq rotY rotRight rotDY adDeriv piQ).coherent) ∧
    (∀ (m : MapS) (l mm : ℤ) (c : ℚ) (m1 : MapS),
      m.setCoeff l mm c = .ok m1 → m1.coherent) ∧
    (∀ (m : MapS) (inds : List ℤ) (coeffs : List ℚ),
      (m.setCoeffBulk inds coeffs).2 = none →
      (m.setCoeffBulk inds coeffs).1.coherent) ∧
    (∀ (m : MapS) (theta : ℚ), (m.rotate theta).coherent) ∧
    (∀ m : MapS, m.reset.coherent) ∧
    (∀ (m : MapS) (v : ℚ × ℚ × ℚ), m.coherent → (m.setAxis v).coherent) := by
  refine ⟨?_, ?_, ?_, ?_, ?_, ?_⟩
  · intro lmax Y00u A1 A sq rotY rotRight rotDY adDeriv piQ
    unfold mkMap MapS.reset
    exact update_coherent _
  · intro m l mm c m1 h
    unfold MapS.setCoeff at h
    by_cases hg1 : l = 0 ∧ m.Y00_is_unity = true ∧ c ≠ 1
    · rw [if_pos hg1] at h
      exact Except.noConfusion h
    · rw [if_neg hg1] at h
      by_cases hg2 : 0 ≤ l ∧ l ≤ (m.lmax : ℤ) ∧ -l ≤ mm ∧ mm ≤ l
      · rw [if_pos hg2] at h
        injection h with h1
        rw [← h1]
        exact update_coherent _
      · rw [if_neg hg2] at h
        exact Except.noConfusion h
  · intro m inds coeffs h
    rcases setCoeffBulk_spec m inds coeffs with ⟨heq, -⟩ | ⟨y1, e1, -, heq⟩ |
      ⟨y1, -, heq⟩
    · rw [heq] at h
      exact Option.noConfusion h
    · rw [heq] at h
      exact Option.noConfusion h
    · rw [heq]
      exact update_coherent _
  · intro m theta
    unfold MapS.rotate
    exact update_coherent _
  · intro m
    unfold MapS.reset
    exact update_coherent _
  · intro m v h
    exact h

/-- C6 witness: the `setAxis`-preservation clause applied to the concrete
coherent constructed map. -/
theorem starry_c6_cache_coherence_witness :
    m1c.coherent ∧ (m1c.setAxis (1, 2, 3)).coherent := by
  have hco : m1c.coherent := by
    unfold m1c mkMap MapS.reset
    exact update_coherent _
  exact ⟨hco, starry_c6_cache_coherence.2.2.2.2.2 m1c (1, 2, 3) hco⟩

/-- Helper for C8: `update` keeps the state well-sized when the
coefficient vector has length `N` and the basis matrices have `N`
rows. -/
theorem update_sized (m : MapS) (hy : m.y.length = m.N)
    (hA1 : m.A1.length = m.N) (hA : m.A.length = m.N) : m.update.sized := by
  refine ⟨hy, ?_, ?_, hA1, hA⟩
  · show (matVec m.A1 m.y).length = m.N
    rw [matVec_length]
    exact hA1
  · show (matVec m.A m.y).length = m.N
    rw [matVec_length]
    exact hA

/-- C8: for every constructed map, `N = (lmax + 1)^2` and the coefficient
vector `y`, the polynomial vector `p` and the Greens vector `g` all have
exactly length `N` (given basis matrices with `N` rows, as the absent
basis.h builds them); moreover every public mutating operation preserves
these lengths and leaves `N` unchanged, so `N` is immutable for the
lifetime of the instance. -/
theorem starry_c8_sizes :
    (∀ (lmax : ℕ) (Y00u : Bool) (A1 A : Mat) (sq : ℚ → ℚ)
       (rotY rotRight rotDY : ℚ → List ℚ → List ℚ)
       (adDeriv : ℚ → ℚ → List ℚ × List ℚ) (piQ : ℚ),
      A1.length = (lmax + 1) ^ 2 → A.length = (lmax + 1) ^ 2 →
      ((mkMap lmax Y00u A1 A sq rotY rotRight rotDY adDeriv piQ).N
          = (lmax + 1) ^ 2 ∧
       (mkMap lmax Y00u A1 A sq rotY rotRight rotDY adDeriv piQ).sized)) ∧
    (∀ (m : MapS) (op : MapOp),
      m.sized → (∀ theta v, (m.rotY theta v).length = v.length) →
      ((applyOp m op).1.sized ∧ (applyOp m op).1.N = m.N)) := by
  constructor
  · intro lmax Y00u A1 A sq rotY rotRight rotDY adDeriv piQ hA1 hA
    constructor
    · show (lmax + 1) * (lmax + 1) = (lmax + 1) ^ 2
      rw [pow_two]
    · unfold mkMap MapS.reset
      apply update_sized
      · show (if Y00u = true
              then (List.replicate ((lmax + 1) * (lmax + 1)) (0 : ℚ)).set 0 1
              else List.replicate ((lmax + 1) * (lmax + 1)) (0 : ℚ)).length
            = (lmax + 1) * (lmax + 1)
        split_ifs <;> simp
      · show A1.length = (lmax + 1) * (lmax + 1)
        rw [hA1, pow_two]
      · show A.length = (lmax + 1) * (lmax + 1)
        rw [hA, pow_two]
  · intro m op hs hrot
    obtain ⟨hy, hp, hg, hA1, hA⟩ := hs
    cases op with
    | opSet l mm c =>
      simp only [applyOp]
      rcases hsc : m.setCoeff l mm c with e | m2
      · exact ⟨⟨hy, hp, hg, hA1, hA⟩, rfl⟩
      · unfold MapS.setCoeff at hsc
        by_cases hg1 : l = 0 ∧ m.Y00_is_unity = true ∧ c ≠ 1
        · rw [if_pos hg1] at hsc
          exact Except.noConfusion hsc
        · rw [if_neg hg1] at hsc
          by_cases hg2 : 0 ≤ l ∧ l ≤ (m.lmax : ℤ) ∧ -l ≤ mm ∧ mm ≤ l
          · rw [if_pos hg2] at hsc
            injection hsc with h1
            rw [← h1]
            refine ⟨update_sized _ ?_ hA1 hA, rfl⟩
            show (m.y.set (l * l + l + mm).toNat c).length = m.N
            rw [List.length_set]
            exact hy
          · rw [if_neg hg2] at hsc
            exact Except.noConfusion hsc
    | opBulk inds coeffs =>
      simp only [applyOp]
      rcases setCoeffBulk_spec m inds coeffs with ⟨heq, -⟩ |
        ⟨y1, e1, hbl, heq⟩ | ⟨y1, hbl, heq⟩
      · rw [heq]
        exact ⟨⟨hy, hp, hg, hA1, hA⟩, rfl⟩
      · have hlen := bulkLoop_fst_length m.Y00_is_unity (m.N : ℤ)
          (inds.zip coeffs) m.y
        rw [hbl] at hlen
        have hy1 : y1.length = m.N := hlen.trans hy
        rw [heq]
        exact ⟨⟨hy1, hp, hg, hA1, hA⟩, rfl⟩
      · have hlen := bulkLoop_fst_length m.Y00_is_unity (m.N : ℤ)
          (inds.zip coeffs) m.y
        rw [hbl] at hlen
        have hy1 : y1.length = m.N := hlen.trans hy
        rw [heq]
        exact ⟨update_sized _ hy1 hA1 hA, rfl⟩
    | opAxis v =>
      simp only [applyOp]
      exact ⟨⟨hy, hp, hg, hA1, hA⟩, rfl⟩
    | opRotate theta =>
      simp only [applyOp]
      refine ⟨update_sized _ ?_ hA1 hA, rfl⟩
      show (m.rotY theta m.y).length = m.N
      rw [hrot theta m.y]
      exact hy
    | opReset =>
      simp only [applyOp]
      refine ⟨update_sized _ ?_ hA1 hA, rfl⟩
      show (if m.Y00_is_unity = true
            then (List.replicate m.N (0 : ℚ)).set 0 1
            else List.replicate m.N (0 : ℚ)).length = m.N
      split_ifs <;> simp

/-- C8 witness: the construction clause at a concrete `lmax = 0` instance
and the preservation clause at a concrete rotation of the `lmax = 1`
instance. -/
theorem starry_c8_sizes_witness :
    ([[(1 : ℚ)]].length = (0 + 1) ^ 2) ∧
    ((mkMap 0 false [[1]] [[1]] sqStub idRot idRot idRot adStub 3).N
        = (0 + 1) ^ 2 ∧
     (mkMap 0 false [[1]] [[1]] sqStub idRot idRot idRot adStub 3).sized) ∧
    m1c.sized ∧
    ((applyOp m1c (.opRotate 5)).1.sized ∧
     (applyOp m1c (.opRotate 5)).1.N = m1c.N) :=
  ⟨by decide,
   starry_c8_sizes.1 0 false [[1]] [[1]] sqStub idRot idRot idRot adStub 3
     (by decide) (by decide),
   by decide,
   starry_c8_sizes.2 m1c (.opRotate 5) (by decide) (fun _ _ => rfl)⟩

/-- C10: `setAxis` performs unguarded normalization.  In the real-number
model of its arithmetic, every nonzero input `(a, b, c)` is stored
divided componentwise by its Euclidean norm, and the stored components
have unit sum of squares; the all-zero input divides zero by the zero
square root, silently storing the non-finite (NaN) sentinel in every
component, with no error raised (the function is total). -/
theorem starry_c10_setaxis_normalization (a b c : ℝ) :
    (¬ (a = 0 ∧ b = 0 ∧ c = 0) →
      setAxisR a b c =
        (some (a / Real.sqrt (a * a + b * b + c * c)),
         some (b / Real.sqrt (a * a + b * b + c * c)),
         some (c / Real.sqrt (a * a + b * b + c * c))) ∧
      (a / Real.sqrt (a * a + b * b + c * c)) ^ 2 +
        (b / Real.sqrt (a * a + b * b + c * c)) ^ 2 +
        (c / Real.sqrt (a * a + b * b + c * c)) ^ 2 = 1) ∧
    setAxisR 0 0 0 = (none, none, none) := by
  constructor
  · intro h
    have hs : 0 < a * a + b * b + c * c := by
      by_contra hc
      push_neg at hc
      have ha2 : a * a = 0 :=
        le_antisymm (by nlinarith [mul_self_nonneg b, mul_self_nonneg c])
          (mul_self_nonneg a)
      have hb2 : b * b = 0 :=
        le_antisymm (by nlinarith [mul_self_nonneg a, mul_self_nonneg c])
          (mul_self_nonneg b)
      have hc2 : c * c = 0 :=
        le_antisymm (by nlinarith [mul_self_nonneg a, mul_self_nonneg b])
          (mul_self_nonneg c)
      exact h ⟨mul_self_eq_zero.mp ha2, mul_self_eq_zero.mp hb2,
        mul_self_eq_zero.mp hc2⟩
    have hd : Real.sqrt (a * a + b * b + c * c) ≠ 0 :=
      ne_of_gt (Real.sqrt_pos.mpr hs)
    constructor
    · unfold setAxisR fdivR
      rw [if_neg hd, if_neg hd, if_neg hd]
    · have hsq : Real.sqrt (a * a + b * b + c * c) ^ 2
          = a * a + b * b + c * c := Real.sq_sqrt hs.le
      rw [div_pow, div_pow, div_pow, div_add_div_same, div_add_div_same,
        hsq, div_eq_one_iff_eq (ne_of_gt hs)]
      ring
  · unfold setAxisR fdivR
    norm_num

/-- C10 witness: the normalization at the concrete nonzero input
`(0, 3, 4)` of norm 5. -/
theorem starry_c10_setaxis_normalization_witness :
    ¬ ((0 : ℝ) = 0 ∧ (3 : ℝ) = 0 ∧ (4 : ℝ) = 0) ∧
    (setAxisR 0 3 4 =
      (some ((0 : ℝ) / Real.sqrt (0 * 0 + 3 * 3 + 4 * 4)),
       some ((3 : ℝ) / Real.sqrt (0 * 0 + 3 * 3 + 4 * 4)),
       some ((4 : ℝ) / Real.sqrt (0 * 0 + 3 * 3 + 4 * 4))) ∧
     ((0 : ℝ) / Real.sqrt (0 * 0 + 3 * 3 + 4 * 4)) ^ 2 +
       ((3 : ℝ) / Real.sqrt (0 * 0 + 3 * 3 + 4 * 4)) ^ 2 +
       ((4 : ℝ) / Real.sqrt (0 * 0 + 3 * 3 + 4 * 4)) ^ 2 = 1) :=
  ⟨by norm_num,
   (starry_c10_setaxis_normalization 0 3 4).1 (by norm_num)⟩

end StarryMaps
